import Mathlib

/-!
Verification development for the n8n-mcp-server workflow-graph core.

The TypeScript source is shallowly embedded: JavaScript objects used as
ordered string-keyed maps become association lists (`List (String × α)`,
first-match lookup, in-place update, append on fresh keys — the insertion
order semantics of JS objects with string keys), arrays become `List`,
`undefined`-able values become `Option`, and functions that mutate a
workflow in place become functions returning the new workflow value.
All definitions are executable.
-/

set_option maxHeartbeats 1000000

namespace N8n

/-! ## JS object / array primitives -/

/-- First-match lookup, the reading `obj[k]` of a JS object whose keys are
unique (an association list models such an object; insertion order is the
list order). -/
def alookup {α : Type} (m : List (String × α)) (k : String) : Option α :=
  match m with
  | [] => none
  | (k₀, v₀) :: rest => if k₀ = k then some v₀ else alookup rest k

/-- The writing `obj[k] = v`: overwrite the first entry holding `k` in
place, or append a fresh entry at the end, as JS objects do. -/
def aset {α : Type} (m : List (String × α)) (k : String) (v : α) : List (String × α) :=
  match m with
  | [] => [(k, v)]
  | (k₀, v₀) :: rest => if k₀ = k then (k₀, v) :: rest else (k₀, v₀) :: aset rest k v

/-- The JS `delete obj[k]`. -/
def aerase {α : Type} (m : List (String × α)) (k : String) : List (String × α) :=
  m.filter (fun kv => kv.1 ≠ k)

/-- `Array.prototype.findIndex`. -/
def jsFindIndex {α : Type} (p : α → Bool) : List α → Option Nat
  | [] => none
  | a :: rest => if p a then some 0 else (jsFindIndex p rest).map (· + 1)

/-- JS `a || b` on an optional string: `undefined` and the empty string are
falsy and fall through to `b`. -/
def jsOr (a : Option String) (b : String) : String :=
  match a with
  | some s => if s = "" then b else s
  | none => b

/-! ## Data model (src/types): nodes, edges, connection tables -/

/-- One edge entry inside an output-slot array of the `connections` table. -/
structure NodeConnection where
  node : String
  type : String
  index : Nat
deriving DecidableEq

/-- `connections[source][type]` : the ordered list of output slots, each an
ordered list of edges. -/
abbrev SlotList := List (List NodeConnection)

/-- `connections[source]` : connection-type label to slot list. -/
abbrev ConnTypeMap := List (String × SlotList)

/-- The whole `connections` table: source node name to its type map. -/
abbrev Connections := List (String × ConnTypeMap)

/-- A workflow node; only the fields the graph utilities read (`id`,
`name`) are represented. -/
structure WorkflowNode where
  id : String
  name : String
deriving DecidableEq

/-- The workflow document as the graph utilities see it. -/
structure Workflow where
  nodes : List WorkflowNode
  connections : Connections
deriving DecidableEq

/-- Client-facing edge descriptor. Absent optional fields are `none`
(JS `undefined`), defaulted by the consuming operations. -/
structure ConnectionSpec where
  sourceNodeId : String
  targetNodeId : String
  sourceIndex : Option Nat := none
  targetIndex : Option Nat := none
  connectionType : Option String := none
deriving DecidableEq

structure NodeValidationResult where
  isValid : Bool
  errors : List String
  nodeId : String
deriving DecidableEq

structure WorkflowValidationResult where
  isValid : Bool
  errors : List String
  nodeErrors : List NodeValidationResult
deriving DecidableEq

/-! ## Graph utilities (workflow-utils, the name-keyed variant) -/

def findNodeByName (workflow : Workflow) (nodeName : String) : Option WorkflowNode :=
  workflow.nodes.find? (fun node => node.name = nodeName)

def findNodeById (workflow : Workflow) (nodeId : String) : Option WorkflowNode :=
  workflow.nodes.find? (fun node => node.id = nodeId)

def getNodeNameById (workflow : Workflow) (nodeId : String) : Option String :=
  (findNodeById workflow nodeId).map (fun node => node.name)

def getNodeIdByName (workflow : Workflow) (nodeName : String) : Option String :=
  (findNodeByName workflow nodeName).map (fun node => node.id)

def validateNodeExists (workflow : Workflow) (nodeId : String) : NodeValidationResult :=
  match findNodeById workflow nodeId with
  | none =>
    { isValid := false
      errors := ["Node with ID '" ++ nodeId ++ "' not found in workflow"]
      nodeId := nodeId }
  | some _ => { isValid := true, errors := [], nodeId := nodeId }

def validateNodesExist (workflow : Workflow) (nodeIds : List String) : WorkflowValidationResult :=
  let nodeErrors := (nodeIds.map (validateNodeExists workflow)).filter (fun v => !v.isValid)
  { isValid := nodeErrors.isEmpty
    errors := nodeErrors.flatMap (fun v => v.errors)
    nodeErrors := nodeErrors }

/-- `true` on a string the source tests for truthiness (empty is falsy). -/
def strTruthy (s : String) : Bool := s ≠ ""

/-- Helper of `removeNodeFromWorkflow`: the test the incoming-edge loop
applies, `connectionArray[j].node === nodeNameToRemove`. When the name
resolution produced `undefined` the strict comparison is always false. -/
def edgeTargetsName (nameToRemove : Option String) (conn : NodeConnection) : Bool :=
  match nameToRemove with
  | some nm => conn.node = nm
  | none => false

/-- Helper of `removeNodeFromWorkflow`: the ConnectionSpec records for the
outgoing edges under the removed node's connection key. -/
def outgoingSpecs (w : Workflow) (nodeId : String) (tmap : ConnTypeMap) : List ConnectionSpec :=
  tmap.flatMap (fun ct =>
    ct.2.flatMap (fun slot =>
      slot.map (fun conn =>
        { sourceNodeId := nodeId
          targetNodeId := jsOr (getNodeIdByName w conn.node) conn.node
          sourceIndex := some conn.index
          targetIndex := none
          connectionType := some ct.1 })))

/-- Helper of `removeNodeFromWorkflow`: the incoming-edge records of one
connection type, emitted slot-index-descending and edge-index-descending,
exactly as the two reverse loops of the source push them. -/
def incomingSpecsForType (nameToRemove : Option String) (w : Workflow) (nodeId : String)
    (sourceNodeName : String) (connectionType : String) (slots : SlotList) : List ConnectionSpec :=
  (List.range slots.length).reverse.flatMap (fun i =>
    ((slots.getD i []).filter (edgeTargetsName nameToRemove)).reverse.map (fun conn =>
      { sourceNodeId := jsOr (getNodeIdByName w sourceNodeName) sourceNodeName
        targetNodeId := nodeId
        sourceIndex := some i
        targetIndex := some conn.index
        connectionType := some connectionType }))

/-- `removeNodeFromWorkflow` (workflow-utils, name-keyed variant): splices
the node out of `nodes` first, then resolves the node's name — the source
calls `findNodeById` only after the splice, so the resolution runs against
the already-shrunk node list — and cleans the connection table against that
resolved name, pruning empty slot arrays, empty type maps and empty source
entries. Returns the new document and the collected removed connections,
outgoing first. -/
def removeNodeFromWorkflow (workflow : Workflow) (nodeId : String) :
    Workflow × List ConnectionSpec :=
  match jsFindIndex (fun node => node.id = nodeId) workflow.nodes with
  | none => (workflow, [])
  | some nodeIndex =>
    let w1 : Workflow := { workflow with nodes := workflow.nodes.eraseIdx nodeIndex }
    let nodeNameToRemove : Option String := (findNodeById w1 nodeId).map (fun n => n.name)
    let outgoingHit : Option ConnTypeMap :=
      match nodeNameToRemove with
      | some nm => if strTruthy nm then alookup w1.connections nm else none
      | none => none
    let conns1 : Connections :=
      match nodeNameToRemove, outgoingHit with
      | some nm, some _ => aerase w1.connections nm
      | _, _ => w1.connections
    let outgoing : List ConnectionSpec :=
      match outgoingHit with
      | some tmap => outgoingSpecs w1 nodeId tmap
      | none => []
    let incoming : List ConnectionSpec :=
      conns1.flatMap (fun src =>
        src.2.flatMap (fun ct =>
          incomingSpecsForType nodeNameToRemove w1 nodeId src.1 ct.1 ct.2))
    let conns2 : Connections :=
      conns1.filterMap (fun src =>
        let tmap' := src.2.filterMap (fun ct =>
          let slots' := (ct.2.map (fun slot =>
            slot.filter (fun conn => !edgeTargetsName nodeNameToRemove conn))).filter
              (fun slot => !slot.isEmpty)
          if slots'.isEmpty then none else some (ct.1, slots'))
        if tmap'.isEmpty then none else some (src.1, tmap'))
    ({ w1 with connections := conns2 }, outgoing ++ incoming)

/-- The duplicate-id / duplicate-name scan of `validateWorkflowIntegrity`,
walking the node list with the two seen-sets. -/
def duplicateErrors : List WorkflowNode → List String → List String → List String
  | [], _, _ => []
  | node :: rest, seenIds, seenNames =>
    (if node.id ∈ seenIds then ["Duplicate node ID found: " ++ node.id] else []) ++
    (if node.name ∈ seenNames then ["Duplicate node name found: " ++ node.name] else []) ++
    duplicateErrors rest (node.id :: seenIds) (node.name :: seenNames)

/-- The connection scan of `validateWorkflowIntegrity`: a source key that is
no node name is reported and its edges skipped (`continue`); otherwise each
edge target is checked against the node names. -/
def connectionErrors (nodeNames : List String) (conns : Connections) : List String :=
  conns.flatMap (fun src =>
    if src.1 ∈ nodeNames then
      src.2.flatMap (fun ct =>
        ct.2.flatMap (fun slot =>
          slot.flatMap (fun conn =>
            if conn.node ∈ nodeNames then []
            else ["Connection target node '" ++ conn.node ++ "' does not exist"])))
    else ["Connection source node '" ++ src.1 ++ "' does not exist"])

def validateWorkflowIntegrity (workflow : Workflow) : WorkflowValidationResult :=
  let errors :=
    duplicateErrors workflow.nodes [] [] ++
    connectionErrors (workflow.nodes.map (fun n => n.name)) workflow.connections
  { isValid := errors.isEmpty, errors := errors, nodeErrors := [] }

/-- The mutation `addConnectionToWorkflow` performs once both endpoint
names are resolved: ensure the type map and slot list exist, pad the slot
list with empty arrays up to `sourceIndex + 1` slots, and append the edge
into the addressed slot unless an identical one is already there. -/
def addConnResult (w : Workflow) (sourceNodeName targetNodeName : String)
    (sourceIndex targetIndex : Nat) (connectionType : String) : Workflow :=
  let tmap := (alookup w.connections sourceNodeName).getD []
  let slots := (alookup tmap connectionType).getD []
  let slots1 := slots ++ List.replicate (sourceIndex + 1 - slots.length) []
  let slot := slots1.getD sourceIndex []
  let existing := slot.any (fun conn =>
    conn.node = targetNodeName && conn.index = targetIndex && conn.type = connectionType)
  let slot1 := if existing then slot
    else slot ++ [{ node := targetNodeName, type := connectionType, index := targetIndex }]
  ⟨w.nodes,
   aset w.connections sourceNodeName
     (aset tmap connectionType (slots1.set sourceIndex slot1))⟩

def addConnectionToWorkflow (workflow : Workflow) (connection : ConnectionSpec) :
    Workflow × Bool :=
  let sourceIndex := connection.sourceIndex.getD 0
  let targetIndex := connection.targetIndex.getD 0
  let connectionType := connection.connectionType.getD "main"
  let validation := validateNodesExist workflow [connection.sourceNodeId, connection.targetNodeId]
  if !validation.isValid then (workflow, false)
  else
    match getNodeNameById workflow connection.sourceNodeId,
          getNodeNameById workflow connection.targetNodeId with
    | some sourceNodeName, some targetNodeName =>
      if !strTruthy sourceNodeName || !strTruthy targetNodeName then (workflow, false)
      else
        (addConnResult workflow sourceNodeName targetNodeName sourceIndex targetIndex
          connectionType, true)
    | _, _ => (workflow, false)

def removeConnectionFromWorkflow (workflow : Workflow) (connection : ConnectionSpec) :
    Workflow × Bool :=
  let sourceIndex := connection.sourceIndex.getD 0
  let targetIndex := connection.targetIndex.getD 0
  let connectionType := connection.connectionType.getD "main"
  match getNodeNameById workflow connection.sourceNodeId,
        getNodeNameById workflow connection.targetNodeId with
  | some sourceNodeName, some targetNodeName =>
    if !strTruthy sourceNodeName || !strTruthy targetNodeName then (workflow, false)
    else
      match alookup workflow.connections sourceNodeName with
      | none => (workflow, false)
      | some tmap =>
        match alookup tmap connectionType with
        | none => (workflow, false)
        | some slots =>
          match slots.get? sourceIndex with
          | none => (workflow, false)
          | some slot =>
            match jsFindIndex (fun conn =>
                conn.node = targetNodeName && conn.index = targetIndex &&
                conn.type = connectionType) slot with
            | none => (workflow, false)
            | some connectionIndex =>
              let slot1 := slot.eraseIdx connectionIndex
              let conns' :=
                if slot1.isEmpty then
                  let slots1 := slots.eraseIdx sourceIndex
                  if slots1.isEmpty then
                    let tmap1 := aerase tmap connectionType
                    if tmap1.isEmpty then aerase workflow.connections sourceNodeName
                    else aset workflow.connections sourceNodeName tmap1
                  else
                    aset workflow.connections sourceNodeName (aset tmap connectionType slots1)
                else
                  aset workflow.connections sourceNodeName
                    (aset tmap connectionType (slots.set sourceIndex slot1))
              ({ workflow with connections := conns' }, true)
  | _, _ => (workflow, false)

/-- One entry of the `connectionsToFix` list of
`cleanupCorruptedConnections`. -/
structure ConnectionFix where
  oldKey : String
  newKey : String
  connections : ConnTypeMap
deriving DecidableEq

/-- The position-by-position merge of two slot-array lists the cleanup
performs when a repaired key collides with an existing one: for each index
of the incoming list, concatenate onto the existing slot array or install
the incoming one where no array exists. -/
def mergeSlotLists : SlotList → SlotList → SlotList
  | old, [] => old
  | [], n :: ns => n :: mergeSlotLists [] ns
  | o :: os, n :: ns => (o ++ n) :: mergeSlotLists os ns

/-- Applying one collected fix: delete the corrupted key, then install the
connections under the node's name, deep-merging if that key already
exists. -/
def applyFix (conns : Connections) (fix : ConnectionFix) : Connections :=
  let conns1 := aerase conns fix.oldKey
  match alookup conns1 fix.newKey with
  | none => aset conns1 fix.newKey fix.connections
  | some existing =>
    let merged := fix.connections.foldl (fun acc ct =>
      match alookup acc ct.1 with
      | none => aset acc ct.1 ct.2
      | some olds => aset acc ct.1 (mergeSlotLists olds ct.2)) existing
    aset conns1 fix.newKey merged

/-- The `connectionsToFix` collection pass of `cleanupCorruptedConnections`:
every connection key that is a node id but no node name. -/
def collectFixes (workflow : Workflow) : List ConnectionFix :=
  workflow.connections.filterMap (fun entry =>
    match findNodeById workflow entry.1, findNodeByName workflow entry.1 with
    | some nodeById, none => some ⟨entry.1, nodeById.name, entry.2⟩
    | _, _ => (none : Option ConnectionFix))

/-- `cleanupCorruptedConnections`: collect every connection key that is a
node id but no node name, then re-key each collected entry to the node's
name. Returns the new document and the number of keys repaired. -/
def cleanupCorruptedConnections (workflow : Workflow) : Workflow × Nat :=
  let fixes := collectFixes workflow
  ({ workflow with connections := fixes.foldl applyFix workflow.connections }, fixes.length)

/-! ## Whole-workflow update tool (update-workflow): merge helpers and the
cardinality safety gate -/

/-- A node as the update tool sees it: a free-form JS object with an `id`
field. The empty string models a missing or empty id (both are falsy where
the source tests `newNode.id`); the other fields are an opaque ordered
key-value payload, enough to express the JS object spread. -/
structure UNode where
  id : String
  fields : List (String × String)
deriving DecidableEq

/-- The object spread `\x7b...old, ...new\x7d` on two update-tool nodes: every
field of the second overrides, the id only when present. -/
def spreadUNode (old upd : UNode) : UNode :=
  { id := if upd.id = "" then old.id else upd.id
    fields := upd.fields.foldl (fun acc kv => aset acc kv.1 kv.2) old.fields }

/-- The loop body of `mergeNodes`, threading the merged list and the
`existingIds` set through the incoming nodes. A node with a known id is
spread onto the match in place (skipped if `findIndex` misses, as the
source's `index >= 0` guard does); otherwise it is appended and its id
recorded. -/
def mergeNodesAux (merged : List UNode) (existingIds : List String) :
    List UNode → List UNode
  | [] => merged
  | n :: ns =>
    if n.id ≠ "" ∧ n.id ∈ existingIds then
      match jsFindIndex (fun node => node.id = n.id) merged with
      | some index =>
        match merged.get? index with
        | some old => mergeNodesAux (merged.set index (spreadUNode old n)) existingIds ns
        | none => mergeNodesAux merged existingIds ns
      | none => mergeNodesAux merged existingIds ns
    else
      mergeNodesAux (merged ++ [n])
        (if n.id ≠ "" then existingIds ++ [n.id] else existingIds) ns

def mergeNodes (currentNodes newNodes : List UNode) : List UNode :=
  mergeNodesAux currentNodes (currentNodes.map (fun n => n.id)) newNodes

/-- `mergeConnections`: start from a copy of the current table; for each
incoming source entry, replace the slot-array list type-by-type, creating
the source entry when absent. Source and type entries the update does not
mention stay in place. -/
def mergeConnections (currentConnections newConnections : Connections) : Connections :=
  newConnections.foldl (fun merged src =>
    let base := (alookup merged src.1).getD []
    let inner := src.2.foldl (fun acc ct => aset acc ct.1 ct.2) base
    aset merged src.1 inner) currentConnections

/-- The current workflow as the update tool sees it. -/
structure UWorkflow where
  nodes : List UNode
  connections : Connections
deriving DecidableEq

/-- The `\x7b nodes, connections \x7d` slice of the update arguments handed to
`validateWorkflowUpdate`; `none` is an absent argument. -/
structure WorkflowUpdates where
  nodes : Option (List UNode)
  connections : Option Connections

inductive UpdateMode where
  | merge
  | replace
deriving DecidableEq

structure UpdateValidation where
  isValid : Bool
  warnings : List String
  errors : List String
deriving DecidableEq

/-- `validateWorkflowUpdate`: in replace mode, dropping a positive node
count to zero is an error, dropping it below half is a warning; the same
two-tier rule applies to the number of connection source keys. The
comparison `newCount < currentCount / 2` runs on JS floats, embedded as
`2 * newCount < currentCount`. -/
def validateWorkflowUpdate (currentWorkflow : UWorkflow) (updates : WorkflowUpdates)
    (updateMode : UpdateMode) : UpdateValidation :=
  let nodePart : List String × List String :=
    match updates.nodes with
    | none => ([], [])
    | some newNodes =>
      let currentNodeCount := currentWorkflow.nodes.length
      let newNodeCount := newNodes.length
      if updateMode = UpdateMode.replace then
        if currentNodeCount > 0 ∧ newNodeCount = 0 then
          ([], ["CRITICAL: Attempting to delete all " ++ toString currentNodeCount ++
                " nodes! This would destroy the entire workflow."])
        else if currentNodeCount > 0 ∧ 2 * newNodeCount < currentNodeCount then
          (["WARNING: Replacing " ++ toString currentNodeCount ++ " nodes with only " ++
            toString newNodeCount ++ " nodes. This will delete " ++
            toString (currentNodeCount - newNodeCount) ++ " existing nodes."], [])
        else ([], [])
      else ([], [])
  let connPart : List String × List String :=
    match updates.connections with
    | none => ([], [])
    | some newConnections =>
      let currentConnectionCount := currentWorkflow.connections.length
      let newConnectionCount := newConnections.length
      if updateMode = UpdateMode.replace then
        if currentConnectionCount > 0 ∧ newConnectionCount = 0 then
          ([], ["CRITICAL: Attempting to delete all " ++ toString currentConnectionCount ++
                " connections! This would disconnect the entire workflow."])
        else if currentConnectionCount > 0 ∧ 2 * newConnectionCount < currentConnectionCount then
          (["WARNING: Replacing " ++ toString currentConnectionCount ++
            " connections with only " ++ toString newConnectionCount ++
            " connections. This will delete " ++
            toString (currentConnectionCount - newConnectionCount) ++
            " existing connections."], [])
        else ([], [])
      else ([], [])
  { isValid := (nodePart.2 ++ connPart.2).isEmpty
    warnings := nodePart.1 ++ connPart.1
    errors := nodePart.2 ++ connPart.2 }

/-- The safety gate of `UpdateWorkflowHandler.execute` around the
validation result: a validation error always blocks; warnings block unless
`force` is supplied. -/
def updateWorkflowGate (currentWorkflow : UWorkflow) (updates : WorkflowUpdates)
    (updateMode : UpdateMode) (force : Bool) : Except String UpdateValidation :=
  let validation := validateWorkflowUpdate currentWorkflow updates updateMode
  if !validation.isValid then
    Except.error (String.intercalate "\n"
      (["Workflow update blocked for safety:"] ++ validation.errors ++
       ["", "If you really want to perform this operation, use updateMode=\"replace\" with force=true.",
        "Consider using the granular CRUD operations instead (add_node, delete_node, etc.)"]))
  else if !validation.warnings.isEmpty ∧ !force then
    Except.error (String.intercalate "\n"
      (["Workflow update has safety warnings:"] ++ validation.warnings ++
       ["", "Add force=true to proceed anyway, or use updateMode=\"merge\" for safer updates.",
        "Consider using the granular CRUD operations instead (add_node, delete_node, etc.)"]))
  else Except.ok validation

def isOkE {ε α : Type} : Except ε α → Bool
  | Except.ok _ => true
  | Except.error _ => false

/-! ## Safe-update orchestrator (base-node-handler) -/

/-- The workflow document as stored remotely: the graph plus the
server-owned metadata and settings payloads, each an opaque ordered
key-value map. -/
structure StoredWorkflow where
  graph : Workflow
  meta : List (String × String)
  settings : List (String × String)
deriving DecidableEq

/-- The read-only fields `cleanWorkflowForUpdate` deletes before a write. -/
def readOnlyFields : List String :=
  ["pinData", "versionId", "staticData", "meta", "shared", "createdAt", "updatedAt",
   "id", "triggerCount", "isArchived", "active", "tags"]

def cleanWorkflowForUpdate (workflow : StoredWorkflow) : StoredWorkflow :=
  { workflow with
    meta := workflow.meta.filter (fun kv => kv.1 ∉ readOnlyFields)
    settings := workflow.settings.filter (fun kv => kv.1 ∉ ["callerIds", "callerPolicy"]) }

/-- What one `updateWorkflowSafely` call left behind: the value returned or
the error raised, the remote document afterwards, and whether the remote
update call was made at all. -/
structure SafeUpdateOutcome where
  result : Except String StoredWorkflow
  remote : StoredWorkflow
  remoteWriteAttempted : Bool

/-- `BaseNodeHandler.updateWorkflowSafely`: fetch, deep-copy, mutate the
copy, validate the copy when asked (raising with every violated invariant
joined into the message and writing nothing back on failure), else clean
and write the copy back as the new remote document. -/
def updateWorkflowSafely (remote : StoredWorkflow)
    (workflowUpdater : StoredWorkflow → StoredWorkflow)
    (validateIntegrity : Bool) : SafeUpdateOutcome :=
  let currentWorkflow := remote
  let workflowCopy := currentWorkflow
  let mutated := workflowUpdater workflowCopy
  let validation := validateWorkflowIntegrity mutated.graph
  if validateIntegrity ∧ !validation.isValid then
    { result := Except.error ("Workflow integrity validation failed: " ++
        String.intercalate ", " validation.errors)
      remote := remote
      remoteWriteAttempted := false }
  else
    let cleaned := cleanWorkflowForUpdate mutated
    { result := Except.ok cleaned, remote := cleaned, remoteWriteAttempted := true }

/-! ## Execution poller (execute tool) -/

/-- An execution record as fetched while polling; timestamps are
milliseconds, `finished` is the JS `finished` flag (`none` = absent). The
`resultErrorMessage` stands for `data.resultData.error.message`. -/
structure ExecutionRecord where
  finished : Option Bool
  status : Option String
  workflowId : String
  startedAt : Nat
  stoppedAt : Option Nat
  resultErrorMessage : Option String
deriving DecidableEq

/-- The record `pollExecutionCompletion` resolves with. -/
structure PollOutcome where
  executionId : String
  workflowId : Option String
  status : String
  startTimeMs : Nat
  endTimeMs : Nat
  duration : Nat
  error : Option String
deriving DecidableEq

/-- The poll loop, fuel-indexed. Time is abstract: a status fetch is
instantaneous and each `setTimeout` wait advances the clock by the chosen
interval; `fetch n` is the record the n-th status request returns. `none`
only when the fuel runs out, which the top-level entry point sizes past
the worst case. -/
def pollAux (executionId : String) (fetch : Nat → ExecutionRecord)
    (timeoutSeconds startTime timeoutMs : Nat) :
    Nat → Nat → Nat → Nat → Option PollOutcome
  | 0, _, _, _ => none
  | fuel + 1, now, pollInterval, pollCount =>
    if now - startTime < timeoutMs then
      let execution := fetch pollCount
      if execution.finished ≠ none ∧ execution.finished ≠ some false then
        some { executionId := executionId
               workflowId := some execution.workflowId
               status := jsOr execution.status
                 (if execution.finished = some true then "success" else "error")
               startTimeMs := execution.startedAt
               endTimeMs := execution.stoppedAt.getD now
               duration :=
                 match execution.stoppedAt with
                 | some t => t - execution.startedAt
                 | none => now - startTime
               error :=
                 if execution.status = some "error" then execution.resultErrorMessage
                 else none }
      else
        let elapsedMs := now - startTime
        let pollInterval1 :=
          if elapsedMs > 90 * 1000 then 10000
          else if elapsedMs > 30 * 1000 then 5000
          else pollInterval
        pollAux executionId fetch timeoutSeconds startTime timeoutMs fuel
          (now + pollInterval1) pollInterval1 (pollCount + 1)
    else
      some { executionId := executionId
             workflowId := none
             status := "timeout"
             startTimeMs := startTime
             endTimeMs := now
             duration := timeoutMs
             error := some ("Execution timed out after " ++ toString timeoutSeconds ++
               " seconds") }

/-- `pollExecutionCompletion`: poll from time 0 with the 2-second starting
interval until a finished record or the timeout. The fuel `timeoutMs + 1`
exceeds the number of loop iterations any run can make, since every
iteration advances the clock by at least one millisecond. -/
def pollExecutionCompletion (executionId : String) (fetch : Nat → ExecutionRecord)
    (timeoutSeconds : Nat) : Option PollOutcome :=
  let timeoutMs := timeoutSeconds * 1000
  pollAux executionId fetch timeoutSeconds 0 timeoutMs (timeoutMs + 1) 0 2000 0

/-! ## Association-list and list lemmas shared by the proofs -/

theorem alookup_aset_self {α : Type} (m : List (String × α)) (k : String) (v : α) :
    alookup (aset m k v) k = some v := by
  induction m with
  | nil => simp [aset, alookup]
  | cons hd tl ih =>
    by_cases h : hd.1 = k
    · simp [aset, alookup, h]
    · simp [aset, alookup, h, ih]

theorem alookup_aset_ne {α : Type} (m : List (String × α)) (k k' : String) (v : α)
    (h : k' ≠ k) : alookup (aset m k v) k' = alookup m k' := by
  have hkk : ¬(k = k') := fun hk => h hk.symm
  induction m with
  | nil => simp only [aset, alookup]; rw [if_neg hkk]
  | cons hd tl ih =>
    by_cases hh : hd.1 = k
    · have hne : ¬(hd.1 = k') := by rw [hh]; exact hkk
      simp only [aset, if_pos hh, alookup, if_neg hne]
    · simp only [aset, if_neg hh, alookup, ih]

theorem aset_of_alookup_eq {α : Type} (m : List (String × α)) (k : String) (v : α)
    (h : alookup m k = some v) : aset m k v = m := by
  induction m with
  | nil => simp [alookup] at h
  | cons hd tl ih =>
    by_cases hh : hd.1 = k
    · simp only [alookup, if_pos hh] at h
      obtain ⟨k₀, v₀⟩ := hd
      simp only at hh h
      have hv : v₀ = v := Option.some.inj h
      subst hv
      simp [aset, hh]
    · simp only [alookup, if_neg hh] at h
      simp [aset, hh, ih h]

theorem alookup_mem {α : Type} {m : List (String × α)} {k : String} {v : α}
    (h : alookup m k = some v) : (k, v) ∈ m := by
  induction m with
  | nil => simp [alookup] at h
  | cons hd tl ih =>
    by_cases hh : hd.1 = k
    · simp only [alookup, if_pos hh] at h
      obtain ⟨k₀, v₀⟩ := hd
      simp only at hh h
      have hv : v₀ = v := Option.some.inj h
      subst hh; subst hv
      exact List.mem_cons_self _ _
    · simp only [alookup, if_neg hh] at h
      exact List.mem_cons_of_mem _ (ih h)

theorem mem_aset {α : Type} {m : List (String × α)} {k : String} {v : α} {x : String × α}
    (h : x ∈ aset m k v) : x = (k, v) ∨ x ∈ m := by
  induction m with
  | nil => simp [aset] at h; simp [h]
  | cons hd tl ih =>
    by_cases hh : hd.1 = k
    · simp only [aset, if_pos hh] at h
      rcases List.mem_cons.mp h with h | h
      · left; rw [h, ← hh]
      · right; exact List.mem_cons_of_mem _ h
    · simp only [aset, if_neg hh] at h
      rcases List.mem_cons.mp h with h | h
      · right; rw [h]; exact List.mem_cons_self _ _
      · rcases ih h with h | h
        · exact Or.inl h
        · exact Or.inr (List.mem_cons_of_mem _ h)

theorem aset_ne_nil {α : Type} (m : List (String × α)) (k : String) (v : α) :
    aset m k v ≠ [] := by
  cases m with
  | nil => simp [aset]
  | cons hd tl =>
    by_cases hh : hd.1 = k <;> simp [aset, hh]

theorem mem_aerase {α : Type} {m : List (String × α)} {k : String} {x : String × α}
    (h : x ∈ aerase m k) : x ∈ m ∧ x.1 ≠ k := by
  unfold aerase at h
  exact ⟨(List.mem_filter.mp h).1, by simpa using (List.mem_filter.mp h).2⟩

theorem jsFindIndex_spec {α : Type} {p : α → Bool} :
    ∀ {l : List α} {i : Nat}, jsFindIndex p l = some i →
      ∃ h : i < l.length, p (l.get ⟨i, h⟩) = true := by
  intro l
  induction l with
  | nil => intro i h; simp [jsFindIndex] at h
  | cons hd tl ih =>
    intro i h
    by_cases hp : p hd
    · simp only [jsFindIndex, if_pos hp] at h
      have hi : i = 0 := (Option.some.inj h).symm
      subst hi
      exact ⟨Nat.succ_pos _, hp⟩
    · simp only [jsFindIndex, if_neg hp, Option.map_eq_some'] at h
      obtain ⟨j, hj, hji⟩ := h
      subst hji
      obtain ⟨hlt, hpj⟩ := ih hj
      exact ⟨Nat.succ_lt_succ hlt, hpj⟩

theorem list_set_get_self {α : Type} :
    ∀ (l : List α) (i : Nat) (h : i < l.length), l.set i (l.get ⟨i, h⟩) = l := by
  intro l
  induction l with
  | nil => intro i h; simp at h
  | cons hd tl ih =>
    intro i h
    cases i with
    | zero => simp
    | succ j => simpa using ih j (Nat.lt_of_succ_lt_succ h)

theorem get?_eraseIdx_of_lt {α : Type} :
    ∀ (l : List α) (i k : Nat), i < k → (l.eraseIdx i).get? (k - 1) = l.get? k := by
  intro l
  induction l with
  | nil => intro i k _; simp [List.eraseIdx]
  | cons hd tl ih =>
    intro i k hik
    cases i with
    | zero =>
      cases k with
      | zero => exact absurd hik (Nat.lt_irrefl 0)
      | succ j => simp [List.eraseIdx]
    | succ i' =>
      cases k with
      | zero => exact absurd hik (Nat.not_lt_zero _)
      | succ j =>
        have hij : i' < j := Nat.lt_of_succ_lt_succ hik
        cases j with
        | zero => exact absurd hij (Nat.not_lt_zero _)
        | succ j' => simpa [List.eraseIdx] using ih i' (j' + 1) hij

theorem mem_of_mem_eraseIdx {α : Type} :
    ∀ {l : List α} {i : Nat} {x : α}, x ∈ l.eraseIdx i → x ∈ l := by
  intro l
  induction l with
  | nil => intro i x h; simp [List.eraseIdx] at h
  | cons hd tl ih =>
    intro i x h
    cases i with
    | zero => exact List.mem_cons_of_mem _ (by simpa [List.eraseIdx] using h)
    | succ i' =>
      simp only [List.eraseIdx, List.mem_cons] at h
      rcases h with h | h
      · exact h ▸ List.mem_cons_self _ _
      · exact List.mem_cons_of_mem _ (ih h)

/-! ## C1 and C2: removeNodeFromWorkflow resolves the name after the splice -/

/-- A valid two-node document with one edge A to B, the promised-invariant
counterexample input. -/
def c1Doc : Workflow :=
  { nodes := [{ id := "a", name := "A" }, { id := "b", name := "B" }]
    connections := [("A", [("main", [[{ node := "B", type := "main", index := 0 }]])])] }

/-- C1: the addressing-integrity invariant fails on `removeNodeFromWorkflow`.
On a document that validates, removing the existing node `b` leaves the
edge targeting name `B` in the connection table (the source resolves the
node name only after splicing the node out, so the cleanup never matches),
and the resulting document no longer validates. -/
theorem removeNode_breaks_addressing_integrity :
    (validateWorkflowIntegrity c1Doc).isValid = true ∧
    (findNodeById c1Doc "b").isSome = true ∧
    (removeNodeFromWorkflow c1Doc "b").1.connections = c1Doc.connections ∧
    (validateWorkflowIntegrity (removeNodeFromWorkflow c1Doc "b").1).isValid = false := by
  decide

/-- The three-node chain A to B to C of the cascading-delete scenario. -/
def c2Doc : Workflow :=
  { nodes := [{ id := "a", name := "A" }, { id := "b", name := "B" }, { id := "c", name := "C" }]
    connections :=
      [("A", [("main", [[{ node := "B", type := "main", index := 0 }]])]),
       ("B", [("main", [[{ node := "C", type := "main", index := 0 }]])])] }

/-- C2: the removal round-trip fails. Deleting the middle node of the
A-to-B-to-C chain returns no ConnectionSpec at all (the claim demands the
two touching edges) and leaves both edges in the connection table
untouched, because the post-splice name resolution yields no name to clean
against. -/
theorem removeNode_returns_no_connections_on_chain :
    (findNodeById c2Doc "b").isSome = true ∧
    (removeNodeFromWorkflow c2Doc "b").2 = [] ∧
    (removeNodeFromWorkflow c2Doc "b").1.connections = c2Doc.connections ∧
    (removeNodeFromWorkflow c2Doc "b").1.nodes =
      [{ id := "a", name := "A" }, { id := "c", name := "C" }] := by
  decide

/-! ## C3: the two-tier cardinality gate of the update tool -/

/-- C3: against a 10-node, 10-source-key current workflow, a replace-mode
update supplying 0 nodes is blocked for every force flag; 4 nodes are
blocked exactly when force is off; 6 or more nodes pass without force; and
the identical two-tier rule holds for connection-source-key counts. -/
theorem updateGate_two_tier_cardinality
    (current : UWorkflow) (ns0 ns4 ns6 : List UNode) (cs0 cs4 cs6 : Connections) (force : Bool)
    (hn : current.nodes.length = 10) (hc : current.connections.length = 10)
    (h0 : ns0.length = 0) (h4 : ns4.length = 4) (h6 : 6 ≤ ns6.length)
    (k0 : cs0.length = 0) (k4 : cs4.length = 4) (k6 : 6 ≤ cs6.length) :
    isOkE (updateWorkflowGate current ⟨some ns0, none⟩ UpdateMode.replace force) = false ∧
    isOkE (updateWorkflowGate current ⟨some ns4, none⟩ UpdateMode.replace false) = false ∧
    isOkE (updateWorkflowGate current ⟨some ns4, none⟩ UpdateMode.replace true) = true ∧
    isOkE (updateWorkflowGate current ⟨some ns6, none⟩ UpdateMode.replace false) = true ∧
    isOkE (updateWorkflowGate current ⟨none, some cs0⟩ UpdateMode.replace force) = false ∧
    isOkE (updateWorkflowGate current ⟨none, some cs4⟩ UpdateMode.replace false) = false ∧
    isOkE (updateWorkflowGate current ⟨none, some cs4⟩ UpdateMode.replace true) = true ∧
    isOkE (updateWorkflowGate current ⟨none, some cs6⟩ UpdateMode.replace false) = true := by
  have h6a : ¬(ns6.length = 0) := by omega
  have h6b : ¬(2 * ns6.length < 10) := by omega
  have k6a : ¬(cs6.length = 0) := by omega
  have k6b : ¬(2 * cs6.length < 10) := by omega
  refine ⟨?_, ?_, ?_, ?_, ?_, ?_, ?_, ?_⟩ <;>
    simp [updateWorkflowGate, validateWorkflowUpdate, isOkE, hn, hc, h0, h4, k0, k4,
      h6a, h6b, k6a, k6b]

/-- A 10-node, 10-key concrete current workflow for the gate witness. -/
def c3Current : UWorkflow :=
  { nodes := (List.range 10).map (fun i => { id := toString i, fields := [] })
    connections := (List.range 10).map (fun i => (toString i, [])) }

/-- Witness for C3 at a concrete 10-node workflow and concrete 0-, 4- and
6-element update payloads. -/
theorem updateGate_two_tier_cardinality_witness :
    isOkE (updateWorkflowGate c3Current ⟨some [], none⟩ UpdateMode.replace true) = false ∧
    isOkE (updateWorkflowGate c3Current
      ⟨some ((List.range 4).map (fun i => { id := toString i, fields := [] })), none⟩
      UpdateMode.replace false) = false ∧
    isOkE (updateWorkflowGate c3Current
      ⟨some ((List.range 4).map (fun i => { id := toString i, fields := [] })), none⟩
      UpdateMode.replace true) = true ∧
    isOkE (updateWorkflowGate c3Current
      ⟨some ((List.range 6).map (fun i => { id := toString i, fields := [] })), none⟩
      UpdateMode.replace false) = true ∧
    isOkE (updateWorkflowGate c3Current ⟨none, some []⟩ UpdateMode.replace true) = false ∧
    isOkE (updateWorkflowGate c3Current
      ⟨none, some ((List.range 4).map (fun i => (toString i, [])))⟩
      UpdateMode.replace false) = false ∧
    isOkE (updateWorkflowGate c3Current
      ⟨none, some ((List.range 4).map (fun i => (toString i, [])))⟩
      UpdateMode.replace true) = true ∧
    isOkE (updateWorkflowGate c3Current
      ⟨none, some ((List.range 6).map (fun i => (toString i, [])))⟩
      UpdateMode.replace false) = true :=
  updateGate_two_tier_cardinality c3Current _ _ _ _ _ _ true
    (by decide) (by decide) (by decide) (by decide) (by decide)
    (by decide) (by decide) (by decide)

/-! ## C4: integrity failure inside updateWorkflowSafely blocks the write -/

/-- C4: when the mutated buffer fails integrity validation under
`validateIntegrity = true`, `updateWorkflowSafely` raises an error carrying
every violated invariant joined into one message, attempts no remote
write, and leaves the remote document exactly as fetched. -/
theorem updateWorkflowSafely_blocks_invalid_mutation
    (remote : StoredWorkflow) (workflowUpdater : StoredWorkflow → StoredWorkflow)
    (hv : (validateWorkflowIntegrity (workflowUpdater remote).graph).isValid = false) :
    updateWorkflowSafely remote workflowUpdater true =
      { result := Except.error ("Workflow integrity validation failed: " ++
          String.intercalate ", "
            (validateWorkflowIntegrity (workflowUpdater remote).graph).errors)
        remote := remote
        remoteWriteAttempted := false } := by
  simp [updateWorkflowSafely, hv]

/-- A stored document whose graph has a dangling connection source, with an
identity mutator: the buffer fails validation. -/
def c4Remote : StoredWorkflow :=
  { graph :=
      { nodes := []
        connections := [("A", [("main", [[{ node := "B", type := "main", index := 0 }]])])] }
    meta := [("versionId", "7")]
    settings := [] }

/-- Witness for C4: at `c4Remote` with the identity mutator the operation
errors out and the remote document stays as fetched. -/
theorem updateWorkflowSafely_blocks_invalid_mutation_witness :
    updateWorkflowSafely c4Remote (fun w => w) true =
      { result := Except.error ("Workflow integrity validation failed: " ++
          String.intercalate ", "
            (validateWorkflowIntegrity ((fun (w : StoredWorkflow) => w) c4Remote).graph).errors)
        remote := c4Remote
        remoteWriteAttempted := false } :=
  updateWorkflowSafely_blocks_invalid_mutation c4Remote (fun w => w) (by decide)

/-! ## C8: the poll loop on a never-finishing execution -/

theorem pollAux_timeout_of_never_finished
    (fetch : Nat → ExecutionRecord)
    (hf : ∀ n, (fetch n).finished = none ∨ (fetch n).finished = some false) :
    ∀ (fuel : Nat) (executionId : String) (timeoutSeconds startTime timeoutMs now
        pollInterval pollCount : Nat),
      1 ≤ pollInterval → startTime ≤ now → timeoutMs - (now - startTime) < fuel →
      ∃ endT,
        pollAux executionId fetch timeoutSeconds startTime timeoutMs fuel now
            pollInterval pollCount =
          some { executionId := executionId, workflowId := none, status := "timeout",
                 startTimeMs := startTime, endTimeMs := endT, duration := timeoutMs,
                 error := some ("Execution timed out after " ++ toString timeoutSeconds ++
                   " seconds") } := by
  intro fuel
  induction fuel with
  | zero =>
    intro _ _ _ _ _ _ _ _ _ hlt
    exact absurd hlt (Nat.not_lt_zero _)
  | succ fuel ih =>
    intro executionId timeoutSeconds startTime timeoutMs now pollInterval pollCount
      hpi hsn hmeasure
    by_cases hrun : now - startTime < timeoutMs
    · have hnotfin : ¬((fetch pollCount).finished ≠ none ∧
          (fetch pollCount).finished ≠ some false) := by
        rcases hf pollCount with h | h <;> simp [h]
      rw [pollAux, if_pos hrun, if_neg hnotfin]
      set pollInterval1 :=
        if now - startTime > 90 * 1000 then 10000
        else if now - startTime > 30 * 1000 then 5000
        else pollInterval with hdef
      have hpi1 : 1 ≤ pollInterval1 := by
        rw [hdef]; split
        · omega
        · split
          · omega
          · exact hpi
      exact ih executionId timeoutSeconds startTime timeoutMs (now + pollInterval1)
        pollInterval1 (pollCount + 1) hpi1 (by omega) (by omega)
    · rw [pollAux, if_neg hrun]
      exact ⟨now, rfl⟩

/-- C8: when no fetched status ever carries a true finished flag, the poll
loop terminates with a record whose status is the string timeout and whose
duration is the configured timeout (in milliseconds), not the wall-clock
time, and no error is raised. -/
theorem poller_timeout_returns_configured_timeout
    (executionId : String) (fetch : Nat → ExecutionRecord) (timeoutSeconds : Nat)
    (hf : ∀ n, (fetch n).finished ≠ some true) :
    ∃ r, pollExecutionCompletion executionId fetch timeoutSeconds = some r ∧
      r.status = "timeout" ∧ r.duration = timeoutSeconds * 1000 ∧
      r.error = some ("Execution timed out after " ++ toString timeoutSeconds ++
        " seconds") := by
  have hf' : ∀ n, (fetch n).finished = none ∨ (fetch n).finished = some false := by
    intro n
    cases hfn : (fetch n).finished with
    | none => exact Or.inl rfl
    | some b =>
      cases b with
      | false => exact Or.inr rfl
      | true => exact absurd hfn (hf n)
  obtain ⟨endT, h⟩ := pollAux_timeout_of_never_finished fetch hf'
    (timeoutSeconds * 1000 + 1) executionId timeoutSeconds 0 (timeoutSeconds * 1000)
    0 2000 0 (by omega) (by omega) (by omega)
  exact ⟨_, by simpa [pollExecutionCompletion] using h, rfl, rfl, rfl⟩

/-- Witness for C8: a fetch whose records never finish, polled with a
5-second timeout. -/
theorem poller_timeout_returns_configured_timeout_witness :
    ∃ r, pollExecutionCompletion "exec1"
        (fun _ => { finished := none, status := none, workflowId := "w1",
                    startedAt := 0, stoppedAt := none, resultErrorMessage := none }) 5
        = some r ∧
      r.status = "timeout" ∧ r.duration = 5 * 1000 ∧
      r.error = some ("Execution timed out after " ++ toString 5 ++ " seconds") :=
  poller_timeout_returns_configured_timeout "exec1" _ 5 (fun _ => by decide)

/-! ## C5: merge mode preserves untouched nodes and connection sources -/

theorem list_get_set_ne {α : Type} :
    ∀ (l : List α) (i j : Nat) (v : α), j < l.length → i ≠ j →
      (l.set i v).get? j = l.get? j := by
  intro l
  induction l with
  | nil => intro i j v h _; simp at h
  | cons hd tl ih =>
    intro i j v h hne
    cases i with
    | zero =>
      cases j with
      | zero => exact absurd rfl hne
      | succ j' => simp
    | succ i' =>
      cases j with
      | zero => simp
      | succ j' =>
        have := ih i' j' v (Nat.lt_of_succ_lt_succ h) (fun he => hne (by rw [he]))
        simpa using this

theorem mergeNodesAux_length (ns : List UNode) :
    ∀ (merged : List UNode) (ids : List String),
      merged.length ≤ (mergeNodesAux merged ids ns).length := by
  induction ns with
  | nil => intro merged ids; simp [mergeNodesAux]
  | cons n ns ih =>
    intro merged ids
    by_cases hcnd : n.id ≠ "" ∧ n.id ∈ ids
    · simp only [mergeNodesAux, if_pos hcnd]
      cases hfi : jsFindIndex (fun node => node.id = n.id) merged with
      | none => dsimp only; exact ih merged ids
      | some index =>
        dsimp only
        cases hget : merged.get? index with
        | none => dsimp only; exact ih merged ids
        | some old =>
          dsimp only
          have h1 : merged.length = (merged.set index (spreadUNode old n)).length :=
            (List.length_set merged index (spreadUNode old n)).symm
          exact h1 ▸ ih (merged.set index (spreadUNode old n)) ids
    · simp only [mergeNodesAux, if_neg hcnd]
      have h1 : merged.length ≤ (merged ++ [n]).length := by simp
      exact Nat.le_trans h1 (ih (merged ++ [n]) _)

theorem mergeNodesAux_preserves (ns : List UNode) :
    ∀ (merged : List UNode) (ids : List String) (i : Nat) (hi : i < merged.length),
      ((merged.get ⟨i, hi⟩).id ∉ ns.map (fun n => n.id)) →
      (mergeNodesAux merged ids ns).get? i = merged.get? i := by
  induction ns with
  | nil => intro merged ids i hi _; simp [mergeNodesAux]
  | cons n ns ih =>
    intro merged ids i hi hmem
    simp only [List.map_cons, List.mem_cons, not_or] at hmem
    obtain ⟨hne, hmem⟩ := hmem
    by_cases hcnd : n.id ≠ "" ∧ n.id ∈ ids
    · simp only [mergeNodesAux, if_pos hcnd]
      cases hfi : jsFindIndex (fun node => node.id = n.id) merged with
      | none => dsimp only; exact ih merged ids i hi hmem
      | some index =>
        dsimp only
        cases hget : merged.get? index with
        | none => dsimp only; exact ih merged ids i hi hmem
        | some old =>
          dsimp only
          obtain ⟨hidx, hp⟩ := jsFindIndex_spec hfi
          have hne' : index ≠ i := by
            intro he
            subst he
            have : (merged.get ⟨index, hidx⟩).id = n.id := by simpa using hp
            exact hne this
          have hset : (merged.set index (spreadUNode old n)).get? i = merged.get? i :=
            list_get_set_ne merged index i _ hi hne'
          have hi2 : i < (merged.set index (spreadUNode old n)).length := by
            rw [List.length_set]; exact hi
          have hval : (merged.set index (spreadUNode old n)).get ⟨i, hi2⟩ =
              merged.get ⟨i, hi⟩ := by
            have g1 := hset
            rw [List.get?_eq_get hi2, List.get?_eq_get hi] at g1
            exact Option.some.inj g1
          have := ih (merged.set index (spreadUNode old n)) ids i hi2 (by rw [hval]; exact hmem)
          rw [this, hset]
    · simp only [mergeNodesAux, if_neg hcnd]
      have hi2 : i < (merged ++ [n]).length := by
        rw [List.length_append]; omega
      have happ : (merged ++ [n]).get? i = merged.get? i := by
        rw [List.get?_append hi]  -- deprecated alias still present in this toolchain
      have hval : (merged ++ [n]).get ⟨i, hi2⟩ = merged.get ⟨i, hi⟩ := by
        have g1 := happ
        rw [List.get?_eq_get hi2, List.get?_eq_get hi] at g1
        exact Option.some.inj g1
      have := ih (merged ++ [n]) (if n.id ≠ "" then ids ++ [n.id] else ids) i hi2
        (by rw [hval]; exact hmem)
      rw [this, happ]

theorem mergeConnections_lookup_of_not_mem (newConnections : Connections) :
    ∀ (acc : Connections) (src : String), src ∉ newConnections.map Prod.fst →
      alookup (mergeConnections acc newConnections) src = alookup acc src := by
  induction newConnections with
  | nil => intro acc src _; rfl
  | cons hd tl ih =>
    intro acc src hmem
    simp only [List.map_cons, List.mem_cons, not_or] at hmem
    obtain ⟨hne, hmem⟩ := hmem
    have step : mergeConnections acc (hd :: tl) =
        mergeConnections (aset acc hd.1
          (hd.2.foldl (fun acc ct => aset acc ct.1 ct.2) ((alookup acc hd.1).getD []))) tl := rfl
    rw [step, ih _ src hmem, alookup_aset_ne _ _ _ _ hne]

/-- C5: a merge-mode update never loses current content. The merged node
list is at least as long as the current one, any current node whose id is
not among the supplied nodes is still at its position unchanged, and any
connection source the supplied table does not mention still maps to
exactly its old entry. -/
theorem merge_mode_preserves_untouched_content
    (currentNodes newNodes : List UNode) (currentConnections newConnections : Connections)
    (i : Nat) (hi : i < currentNodes.length)
    (hnode : (currentNodes.get ⟨i, hi⟩).id ∉ newNodes.map (fun n => n.id))
    (src : String) (hsrc : src ∉ newConnections.map Prod.fst) :
    currentNodes.length ≤ (mergeNodes currentNodes newNodes).length ∧
    (mergeNodes currentNodes newNodes).get? i = some (currentNodes.get ⟨i, hi⟩) ∧
    alookup (mergeConnections currentConnections newConnections) src
      = alookup currentConnections src := by
  refine ⟨mergeNodesAux_length newNodes currentNodes _, ?_, ?_⟩
  · have := mergeNodesAux_preserves newNodes currentNodes
      (currentNodes.map (fun n => n.id)) i hi hnode
    rw [mergeNodes, this, List.get?_eq_get hi]
  · exact mergeConnections_lookup_of_not_mem newConnections currentConnections src hsrc

/-- Witness for C5: one untouched node and one untouched source survive a
concrete merge. -/
theorem merge_mode_preserves_untouched_content_witness :
    ([{ id := "keep", fields := [] }] : List UNode).length ≤
      (mergeNodes [{ id := "keep", fields := [] }] [{ id := "new1", fields := [] }]).length ∧
    (mergeNodes [{ id := "keep", fields := [] }] [{ id := "new1", fields := [] }]).get? 0 =
      some (([{ id := "keep", fields := [] }] : List UNode).get ⟨0, by decide⟩) ∧
    alookup (mergeConnections
        [("Y", [("main", [[{ node := "Z", type := "main", index := 0 }]])])]
        [("X", [("main", [[{ node := "W", type := "main", index := 0 }]])])]) "Y"
      = alookup [("Y", [("main", [[{ node := "Z", type := "main", index := 0 }]])])] "Y" :=
  merge_mode_preserves_untouched_content
    [{ id := "keep", fields := [] }] [{ id := "new1", fields := [] }]
    [("Y", [("main", [[{ node := "Z", type := "main", index := 0 }]])])]
    [("X", [("main", [[{ node := "W", type := "main", index := 0 }]])])]
    0 (by decide) (by decide) "Y" (by decide)

/-! ## C7: cleanupCorruptedConnections is idempotent -/

theorem mem_applyFix {conns : Connections} {f : ConnectionFix} {e : String × ConnTypeMap}
    (h : e ∈ applyFix conns f) : e.1 = f.newKey ∨ (e ∈ conns ∧ e.1 ≠ f.oldKey) := by
  unfold applyFix at h
  dsimp only at h
  split at h
  · rcases mem_aset h with h | h
    · exact Or.inl (by rw [h])
    · exact Or.inr (mem_aerase h)
  · rcases mem_aset h with h | h
    · exact Or.inl (by rw [h])
    · exact Or.inr (mem_aerase h)

theorem foldl_applyFix_no_bad (P : String → Prop) :
    ∀ (fixes : List ConnectionFix) (conns : Connections),
      (∀ f ∈ fixes, ¬ P f.newKey) →
      (∀ e ∈ conns, ¬ P e.1 ∨ ∃ f ∈ fixes, e.1 = f.oldKey) →
      ∀ e ∈ fixes.foldl applyFix conns, ¬ P e.1 := by
  intro fixes
  induction fixes with
  | nil =>
    intro conns _ hc e he
    rcases hc e he with h | ⟨f, hf, _⟩
    · exact h
    · exact absurd hf (List.not_mem_nil f)
  | cons f fs ih =>
    intro conns hnew hc e he
    rw [List.foldl_cons] at he
    refine ih (applyFix conns f) (fun g hg => hnew g (List.mem_cons_of_mem _ hg)) ?_ e he
    intro e' he'
    rcases mem_applyFix he' with h | ⟨hmem, hne⟩
    · left
      intro hp
      exact hnew f (List.mem_cons_self _ _) (h ▸ hp)
    · rcases hc e' hmem with h | ⟨g, hg, hgk⟩
      · exact Or.inl h
      · rcases List.mem_cons.mp hg with hg | hg
        · exact absurd (by rw [hgk, hg]) hne
        · exact Or.inr ⟨g, hg, hgk⟩

/-- The corrupted-key predicate the collection pass tests: the key is some
node's id but no node's name. -/
def badConnectionKey (w : Workflow) (k : String) : Prop :=
  (findNodeById w k).isSome = true ∧ findNodeByName w k = none

theorem collectFixes_newKey_not_bad {w : Workflow} {f : ConnectionFix}
    (hf : f ∈ collectFixes w) : ¬ badConnectionKey w f.newKey := by
  unfold collectFixes at hf
  obtain ⟨e, _, hfe⟩ := List.mem_filterMap.mp hf
  rcases h1 : findNodeById w e.1 with _ | nb <;> rw [h1] at hfe
  · simp at hfe
  · rcases h2 : findNodeByName w e.1 with _ | other <;> rw [h2] at hfe
    · have hfeq : f = ⟨e.1, nb.name, e.2⟩ := (Option.some.inj hfe).symm
      subst hfeq
      rintro ⟨_, hname⟩
      have hnb : nb ∈ w.nodes := List.mem_of_find?_eq_some h1
      have : (w.nodes.find? (fun node => node.name = nb.name)).isSome := by
        rw [List.find?_isSome]
        exact ⟨nb, hnb, by simp⟩
      rw [show findNodeByName w nb.name =
        w.nodes.find? (fun node => node.name = nb.name) from rfl] at hname
      rw [hname] at this
      simp at this
    · simp at hfe

theorem collectFixes_covers_bad {w : Workflow} {e : String × ConnTypeMap}
    (he : e ∈ w.connections) (hbad : badConnectionKey w e.1) :
    ∃ f ∈ collectFixes w, e.1 = f.oldKey := by
  obtain ⟨hid, hname⟩ := hbad
  rw [Option.isSome_iff_exists] at hid
  obtain ⟨nb, h1⟩ := hid
  refine ⟨⟨e.1, nb.name, e.2⟩, ?_, rfl⟩
  unfold collectFixes
  refine List.mem_filterMap.mpr ⟨e, he, ?_⟩
  rw [h1, hname]

theorem cleanup_result_no_bad (w : Workflow) :
    ∀ e ∈ (cleanupCorruptedConnections w).1.connections, ¬ badConnectionKey w e.1 := by
  intro e he
  refine foldl_applyFix_no_bad (badConnectionKey w) (collectFixes w) w.connections
    (fun f hf => collectFixes_newKey_not_bad hf) ?_ e he
  intro e' he'
  by_cases hb : badConnectionKey w e'.1
  · exact Or.inr (collectFixes_covers_bad he' hb)
  · exact Or.inl hb

/-- C7: running `cleanupCorruptedConnections` a second time on its own
output repairs zero keys and returns the document unchanged: every key the
first run leaves behind is either an untouched non-corrupted key or a node
name, so the second collection pass is empty. -/
theorem cleanupCorruptedConnections_idempotent (w : Workflow) :
    cleanupCorruptedConnections (cleanupCorruptedConnections w).1 =
      ((cleanupCorruptedConnections w).1, 0) := by
  have hfix : collectFixes (cleanupCorruptedConnections w).1 = [] := by
    rw [collectFixes, List.filterMap_eq_nil]
    intro e he
    have hnb := cleanup_result_no_bad w e he
    rcases h1 : findNodeById (cleanupCorruptedConnections w).1 e.1 with _ | nb
    · rfl
    · rcases h2 : findNodeByName (cleanupCorruptedConnections w).1 e.1 with _ | other
      · exfalso
        apply hnb
        have hid : findNodeById w e.1 = some nb := h1
        have hnm : findNodeByName w e.1 = none := h2
        exact ⟨by rw [hid]; rfl, hnm⟩
      · rfl
  set w1 : Workflow := (cleanupCorruptedConnections w).1 with hw1
  have hdef : cleanupCorruptedConnections w1 =
      ({ w1 with connections := (collectFixes w1).foldl applyFix w1.connections },
       (collectFixes w1).length) := rfl
  rw [hdef, hfix]
  rfl

/-! ## C10: removing the last edge of a slot splices the slot out -/

/-- C10: when `connections[sourceName][type]` holds at least two slots and
the addressed slot holds exactly the one matching edge, a successful
`removeConnectionFromWorkflow` splices that slot out of the slot list, so
every edge formerly at slot index k > s is afterwards addressed at k - 1. -/
theorem removeConnection_splices_singleton_slot
    (w : Workflow) (c : ConnectionSpec) (sn tn : String)
    (tmap : ConnTypeMap) (slots : SlotList) (e : NodeConnection)
    (hs : getNodeNameById w c.sourceNodeId = some sn)
    (ht : getNodeNameById w c.targetNodeId = some tn)
    (hsn : sn ≠ "") (htn : tn ≠ "")
    (hm : alookup w.connections sn = some tmap)
    (hty : alookup tmap (c.connectionType.getD "main") = some slots)
    (h2 : 2 ≤ slots.length)
    (hsi : slots.get? (c.sourceIndex.getD 0) = some [e])
    (he1 : e.node = tn) (he2 : e.index = c.targetIndex.getD 0)
    (he3 : e.type = c.connectionType.getD "main") :
    (removeConnectionFromWorkflow w c).2 = true ∧
    (removeConnectionFromWorkflow w c).1.connections =
      aset w.connections sn
        (aset tmap (c.connectionType.getD "main")
          (slots.eraseIdx (c.sourceIndex.getD 0))) ∧
    alookup (removeConnectionFromWorkflow w c).1.connections sn =
      some (aset tmap (c.connectionType.getD "main")
        (slots.eraseIdx (c.sourceIndex.getD 0))) ∧
    alookup (aset tmap (c.connectionType.getD "main")
        (slots.eraseIdx (c.sourceIndex.getD 0))) (c.connectionType.getD "main") =
      some (slots.eraseIdx (c.sourceIndex.getD 0)) ∧
    (∀ k, c.sourceIndex.getD 0 < k →
      (slots.eraseIdx (c.sourceIndex.getD 0)).get? (k - 1) = slots.get? k) := by
  have hsilt : c.sourceIndex.getD 0 < slots.length := by
    rcases List.get?_eq_some.mp hsi with ⟨hlt, _⟩
    exact hlt
  have hfind : jsFindIndex (fun conn =>
      conn.node = tn && conn.index = c.targetIndex.getD 0 &&
      conn.type = c.connectionType.getD "main") [e] = some 0 := by
    simp [jsFindIndex, he1, he2, he3]
  have hslots1 : ¬(slots.eraseIdx (c.sourceIndex.getD 0)).isEmpty = true := by
    rw [List.isEmpty_iff, ← List.length_eq_zero]
    rw [List.length_eraseIdx_of_lt hsilt]
    omega
  have hres : removeConnectionFromWorkflow w c =
      (⟨w.nodes,
        aset w.connections sn
          (aset tmap (c.connectionType.getD "main")
            (slots.eraseIdx (c.sourceIndex.getD 0)))⟩, true) := by
    simp only [removeConnectionFromWorkflow, hs, ht, hm, hty, hsi, hfind]
    rw [if_neg (by simp [strTruthy, hsn, htn])]
    simp only [List.eraseIdx]
    rw [if_pos (by simp), if_neg hslots1]
  refine ⟨by rw [hres], by rw [hres], ?_, alookup_aset_self _ _ _, ?_⟩
  · rw [hres]
    exact alookup_aset_self _ _ _
  · intro k hk
    exact get?_eraseIdx_of_lt slots (c.sourceIndex.getD 0) k hk

/-- Concrete document for the C10 witness: source A with two slots, slot 0
holding the single edge to B, slot 1 an edge to C. -/
def c10Edge : NodeConnection := { node := "B", type := "main", index := 0 }

def c10Slots : SlotList := [[c10Edge], [{ node := "C", type := "main", index := 0 }]]

def c10Tmap : ConnTypeMap := [("main", c10Slots)]

def c10Doc : Workflow :=
  { nodes := [{ id := "a", name := "A" }, { id := "b", name := "B" }, { id := "c", name := "C" }]
    connections := [("A", c10Tmap)] }

def c10Spec : ConnectionSpec := { sourceNodeId := "a", targetNodeId := "b" }

/-- Witness for C10 at `c10Doc`: removing the lone edge of slot 0 splices
the slot, moving the slot-1 edge down one index. -/
theorem removeConnection_splices_singleton_slot_witness :
    (removeConnectionFromWorkflow c10Doc c10Spec).2 = true ∧
    (removeConnectionFromWorkflow c10Doc c10Spec).1.connections =
      aset c10Doc.connections "A"
        (aset c10Tmap (c10Spec.connectionType.getD "main")
          (c10Slots.eraseIdx (c10Spec.sourceIndex.getD 0))) ∧
    alookup (removeConnectionFromWorkflow c10Doc c10Spec).1.connections "A" =
      some (aset c10Tmap (c10Spec.connectionType.getD "main")
        (c10Slots.eraseIdx (c10Spec.sourceIndex.getD 0))) ∧
    alookup (aset c10Tmap (c10Spec.connectionType.getD "main")
        (c10Slots.eraseIdx (c10Spec.sourceIndex.getD 0))) (c10Spec.connectionType.getD "main") =
      some (c10Slots.eraseIdx (c10Spec.sourceIndex.getD 0)) ∧
    (∀ k, c10Spec.sourceIndex.getD 0 < k →
      (c10Slots.eraseIdx (c10Spec.sourceIndex.getD 0)).get? (k - 1) = c10Slots.get? k) :=
  removeConnection_splices_singleton_slot c10Doc c10Spec "A" "B" c10Tmap c10Slots c10Edge
    (by decide) (by decide) (by decide) (by decide) (by decide) (by decide)
    (by decide) (by decide) (by decide) (by decide) (by decide)

/-! ## C6: idempotence of addConnectionToWorkflow -/

theorem list_getD_set_self {α : Type} :
    ∀ (l : List α) (i : Nat) (v d : α), i < l.length → (l.set i v).getD i d = v := by
  intro l
  induction l with
  | nil => intro i v d h; simp at h
  | cons hd tl ih =>
    intro i v d h
    cases i with
    | zero => simp [List.getD]
    | succ j => simpa [List.getD] using ih j v d (Nat.lt_of_succ_lt_succ h)

theorem getD_append_pad (l : SlotList) :
    ∀ (n : Nat),
      (l ++ List.replicate (n + 1 - l.length) ([] : List NodeConnection)).getD n [] =
        l.getD n [] := by
  induction l with
  | nil =>
    intro n
    have h1 : n < n + 1 := Nat.lt_succ_self n
    simp [List.getD, List.getElem?_replicate, h1]
  | cons hd tl ih =>
    intro n
    cases n with
    | zero => simp [List.getD]
    | succ m => simpa [List.getD] using ih m

/-- The number of edges in the addressed output slot matching the target
name, target index and connection type. -/
def matchingEdgeCount (w : Workflow) (sn ty : String) (si : Nat) (tn : String) (ti : Nat) : Nat :=
  let tmap := (alookup w.connections sn).getD []
  let slots := (alookup tmap ty).getD []
  let slot := slots.getD si []
  slot.countP (fun conn => conn.node = tn && conn.index = ti && conn.type = ty)

/-- When both endpoint ids resolve to nodes with non-empty names, the
add-connection tool takes its success path and performs `addConnResult`. -/
theorem addConnection_eq_core (w : Workflow) (c : ConnectionSpec) (sn tn : WorkflowNode)
    (hs : findNodeById w c.sourceNodeId = some sn)
    (ht : findNodeById w c.targetNodeId = some tn)
    (hsn : sn.name ≠ "") (htn : tn.name ≠ "") :
    addConnectionToWorkflow w c =
      (addConnResult w sn.name tn.name (c.sourceIndex.getD 0) (c.targetIndex.getD 0)
        (c.connectionType.getD "main"), true) := by
  have hval : (validateNodesExist w [c.sourceNodeId, c.targetNodeId]).isValid = true := by
    simp [validateNodesExist, validateNodeExists, hs, ht]
  have hgs : getNodeNameById w c.sourceNodeId = some sn.name := by
    simp [getNodeNameById, hs]
  have hgt : getNodeNameById w c.targetNodeId = some tn.name := by
    simp [getNodeNameById, ht]
  simp only [addConnectionToWorkflow, hval, hgs, hgt, Bool.not_true, Bool.false_eq_true,
    if_false]
  rw [if_neg (by simp [strTruthy, hsn, htn])]

theorem addConnResult_stable
    (w : Workflow) (sn tn : String) (si ti : Nat) (ty : String)
    (tmap : ConnTypeMap) (slots slots1 slots2 : SlotList) (slot slot1 : List NodeConnection)
    (existing : Bool)
    (h1 : tmap = (alookup w.connections sn).getD [])
    (h2 : slots = (alookup tmap ty).getD [])
    (h3 : slots1 = slots ++ List.replicate (si + 1 - slots.length) [])
    (h4 : slot = slots1.getD si [])
    (h5 : existing = slot.any (fun conn => conn.node = tn && conn.index = ti && conn.type = ty))
    (h6 : slot1 = (if existing then slot
      else slot ++ [{ node := tn, type := ty, index := ti }]))
    (h7 : slots2 = slots1.set si slot1) :
    addConnResult (addConnResult w sn tn si ti ty) sn tn si ti ty =
        addConnResult w sn tn si ti ty ∧
    matchingEdgeCount (addConnResult w sn tn si ti ty) sn ty si tn ti =
      (if existing then
        slot.countP (fun conn => conn.node = tn && conn.index = ti && conn.type = ty)
      else
        slot.countP (fun conn => conn.node = tn && conn.index = ti && conn.type = ty) + 1) := by
  have hw : addConnResult w sn tn si ti ty =
      ⟨w.nodes, aset w.connections sn (aset tmap ty slots2)⟩ := by
    rw [h7, h6, h5, h4, h3, h2, h1]; rfl
  have hlen1 : si + 1 ≤ slots1.length := by
    rw [h3, List.length_append, List.length_replicate]; omega
  have hlen2 : slots2.length = slots1.length := by rw [h7, List.length_set]
  have k1 : (alookup (aset w.connections sn (aset tmap ty slots2)) sn).getD
      ([] : ConnTypeMap) = aset tmap ty slots2 := by
    rw [alookup_aset_self]; rfl
  have k2 : (alookup (aset tmap ty slots2) ty).getD ([] : SlotList) = slots2 := by
    rw [alookup_aset_self]; rfl
  have k3 : slots2 ++ List.replicate (si + 1 - slots2.length) ([] : List NodeConnection) =
      slots2 := by
    have h0 : si + 1 - slots2.length = 0 := by omega
    rw [h0]; simp
  have k4 : slots2.getD si ([] : List NodeConnection) = slot1 := by
    rw [h7]; exact list_getD_set_self slots1 si slot1 [] (by omega)
  have hedge : (fun conn =>
      conn.node = tn && conn.index = ti && conn.type = ty)
        ({ node := tn, type := ty, index := ti } : NodeConnection) = true := by
    simp
  have k5 : slot1.any (fun conn =>
      conn.node = tn && conn.index = ti && conn.type = ty) = true := by
    rw [h6]
    cases hex : existing with
    | true =>
      rw [if_pos rfl]
      rw [hex] at h5
      exact h5.symm
    | false => simp [hedge]
  have k6 : slots2.set si slot1 = slots2 := by rw [h7, List.set_set]
  have k7 : aset (aset tmap ty slots2) ty slots2 = aset tmap ty slots2 :=
    aset_of_alookup_eq _ _ _ (alookup_aset_self _ _ _)
  have k8 : aset (aset w.connections sn (aset tmap ty slots2)) sn (aset tmap ty slots2) =
      aset w.connections sn (aset tmap ty slots2) :=
    aset_of_alookup_eq _ _ _ (alookup_aset_self _ _ _)
  constructor
  · rw [hw]
    simp only [addConnResult, k1, k2, k3, k4, k5, if_true, k6, k7, k8]
  · rw [hw]
    simp only [matchingEdgeCount, k1, k2, k4]
    rw [h6]
    cases hex : existing with
    | true => rw [if_pos rfl, if_pos rfl]
    | false =>
      rw [if_neg (by simp), if_neg (by simp)]
      rw [List.countP_append]
      simp [hedge]

/-- C6 (amended): for endpoints that resolve to nodes with non-empty
names, calling `addConnectionToWorkflow` twice with an identical
ConnectionSpec returns true both times and leaves the document after the
second call equal to the document after the first; and when the addressed
slot held at most one matching edge beforehand, exactly one matching edge
is in the addressed slot afterwards. -/
theorem addConnection_idempotent_amended
    (w : Workflow) (c : ConnectionSpec) (sn tn : WorkflowNode)
    (hs : findNodeById w c.sourceNodeId = some sn)
    (ht : findNodeById w c.targetNodeId = some tn)
    (hsn : sn.name ≠ "") (htn : tn.name ≠ "")
    (hcount : matchingEdgeCount w sn.name (c.connectionType.getD "main")
        (c.sourceIndex.getD 0) tn.name (c.targetIndex.getD 0) ≤ 1) :
    (addConnectionToWorkflow w c).2 = true ∧
    (addConnectionToWorkflow (addConnectionToWorkflow w c).1 c).2 = true ∧
    (addConnectionToWorkflow (addConnectionToWorkflow w c).1 c).1 =
      (addConnectionToWorkflow w c).1 ∧
    matchingEdgeCount (addConnectionToWorkflow w c).1 sn.name
      (c.connectionType.getD "main") (c.sourceIndex.getD 0) tn.name
      (c.targetIndex.getD 0) = 1 := by
  have hcore := addConnection_eq_core w c sn tn hs ht hsn htn
  have hs1 : findNodeById (addConnResult w sn.name tn.name (c.sourceIndex.getD 0)
      (c.targetIndex.getD 0) (c.connectionType.getD "main")) c.sourceNodeId = some sn := hs
  have ht1 : findNodeById (addConnResult w sn.name tn.name (c.sourceIndex.getD 0)
      (c.targetIndex.getD 0) (c.connectionType.getD "main")) c.targetNodeId = some tn := ht
  have hcore1 := addConnection_eq_core _ c sn tn hs1 ht1 hsn htn
  set si : Nat := c.sourceIndex.getD 0 with hsidef
  set ti : Nat := c.targetIndex.getD 0 with htidef
  set ty : String := c.connectionType.getD "main" with htydef
  set tmap : ConnTypeMap := (alookup w.connections sn.name).getD [] with htmapdef
  set slots : SlotList := (alookup tmap ty).getD [] with hslotsdef
  set slots1 : SlotList := slots ++ List.replicate (si + 1 - slots.length) [] with hslots1def
  set slot : List NodeConnection := slots1.getD si [] with hslotdef
  set existing : Bool := slot.any (fun conn =>
    conn.node = tn.name && conn.index = ti && conn.type = ty) with hexdef
  set slot1 : List NodeConnection := (if existing then slot
    else slot ++ [{ node := tn.name, type := ty, index := ti }]) with hslot1def
  set slots2 : SlotList := slots1.set si slot1 with hslots2def
  obtain ⟨hstable, hcnt⟩ := addConnResult_stable w sn.name tn.name si ti ty
    tmap slots slots1 slots2 slot slot1 existing
    htmapdef hslotsdef hslots1def hslotdef hexdef hslot1def hslots2def
  have hslotlink : slot.countP (fun conn =>
      conn.node = tn.name && conn.index = ti && conn.type = ty) =
      matchingEdgeCount w sn.name ty si tn.name ti := by
    rw [hslotdef, hslots1def, getD_append_pad, hslotsdef, htmapdef]
    rfl
  refine ⟨by rw [hcore], by rw [hcore, hcore1], by rw [hcore, hcore1, hstable], ?_⟩
  rw [hcore, hcnt]
  cases hexE : existing with
  | true =>
    rw [if_pos rfl]
    have hany : slot.any (fun conn =>
        conn.node = tn.name && conn.index = ti && conn.type = ty) = true := by
      rw [← hexdef, hexE]
    have hpos : 0 < slot.countP (fun conn =>
        conn.node = tn.name && conn.index = ti && conn.type = ty) :=
      List.countP_pos.mpr (List.any_eq_true.mp hany)
    rw [hslotlink] at hpos
    rw [hslotlink]
    omega
  | false =>
    rw [if_neg (by simp)]
    have hany : slot.any (fun conn =>
        conn.node = tn.name && conn.index = ti && conn.type = ty) = false := by
      rw [← hexdef, hexE]
    have hz : slot.countP (fun conn =>
        conn.node = tn.name && conn.index = ti && conn.type = ty) = 0 := by
      rw [List.countP_eq_zero]
      intro a ha hpa
      have : slot.any (fun conn =>
          conn.node = tn.name && conn.index = ti && conn.type = ty) = true :=
        List.any_eq_true.mpr ⟨a, ha, hpa⟩
      rw [hany] at this
      exact Bool.false_ne_true this
    rw [hz]

/-- The C6 counterexample document: the addressed slot already holds two
identical matching edges. -/
def c6Doc : Workflow :=
  { nodes := [{ id := "a", name := "A" }, { id := "b", name := "B" }]
    connections := [("A", [("main",
      [[{ node := "B", type := "main", index := 0 },
        { node := "B", type := "main", index := 0 }]])])] }

def c6Spec : ConnectionSpec := { sourceNodeId := "a", targetNodeId := "b" }

/-- C6 counterexample: on a document whose addressed slot already holds two
identical matching edges, both calls return true and the document is
stable, but the slot holds two matching edges, not exactly one as the
claim states. -/
theorem addConnection_twice_leaves_two_matching_edges :
    (addConnectionToWorkflow c6Doc c6Spec).2 = true ∧
    (addConnectionToWorkflow (addConnectionToWorkflow c6Doc c6Spec).1 c6Spec).2 = true ∧
    (addConnectionToWorkflow (addConnectionToWorkflow c6Doc c6Spec).1 c6Spec).1 =
      (addConnectionToWorkflow c6Doc c6Spec).1 ∧
    matchingEdgeCount (addConnectionToWorkflow (addConnectionToWorkflow c6Doc c6Spec).1
      c6Spec).1 "A" "main" 0 "B" 0 = 2 := by
  decide

/-- A clean two-node document for the C6 witness. -/
def c6AmDoc : Workflow :=
  { nodes := [{ id := "a", name := "A" }, { id := "b", name := "B" }]
    connections := [] }

/-- Witness for the amended C6 at `c6AmDoc`. -/
theorem addConnection_idempotent_amended_witness :
    (addConnectionToWorkflow c6AmDoc c6Spec).2 = true ∧
    (addConnectionToWorkflow (addConnectionToWorkflow c6AmDoc c6Spec).1 c6Spec).2 = true ∧
    (addConnectionToWorkflow (addConnectionToWorkflow c6AmDoc c6Spec).1 c6Spec).1 =
      (addConnectionToWorkflow c6AmDoc c6Spec).1 ∧
    matchingEdgeCount (addConnectionToWorkflow c6AmDoc c6Spec).1 "A"
      (c6Spec.connectionType.getD "main") (c6Spec.sourceIndex.getD 0) "B"
      (c6Spec.targetIndex.getD 0) = 1 :=
  addConnection_idempotent_amended c6AmDoc c6Spec
    { id := "a", name := "A" } { id := "b", name := "B" }
    (by decide) (by decide) (by decide) (by decide) (by decide)

/-! ## C9: no empty arrays or maps as connection leaves -/

/-- Every connection-type entry has a non-empty slot list all of whose
slots are non-empty. -/
def TypeMapOk (tmap : ConnTypeMap) : Prop :=
  ∀ ct ∈ tmap, ct.2 ≠ [] ∧ ∀ slot ∈ ct.2, slot ≠ []

/-- The pruning invariant of the spec: no empty source entries, no empty
type maps, no empty output-slot arrays anywhere in `connections`. -/
def NoEmptyLeaves (c : Connections) : Prop :=
  ∀ src ∈ c, src.2 ≠ [] ∧ TypeMapOk src.2

/-- Boolean form of `NoEmptyLeaves`, for concrete evaluation. -/
def noEmptyLeavesB (c : Connections) : Bool :=
  c.all (fun src => !src.2.isEmpty && src.2.all (fun ct =>
    !ct.2.isEmpty && ct.2.all (fun slot => !slot.isEmpty)))

theorem noEmptyLeavesB_iff (c : Connections) :
    noEmptyLeavesB c = true ↔ NoEmptyLeaves c := by
  unfold noEmptyLeavesB NoEmptyLeaves TypeMapOk
  simp [List.all_eq_true, List.isEmpty_iff]

theorem TypeMapOk_aset {tmap : ConnTypeMap} {ty : String} {S : SlotList}
    (h : TypeMapOk tmap) (hS : S ≠ []) (hm : ∀ slot ∈ S, slot ≠ []) :
    TypeMapOk (aset tmap ty S) := by
  intro ct hct
  rcases mem_aset hct with hc | hc
  · rw [hc]; exact ⟨hS, hm⟩
  · exact h ct hc

theorem TypeMapOk_aerase {tmap : ConnTypeMap} {ty : String} (h : TypeMapOk tmap) :
    TypeMapOk (aerase tmap ty) :=
  fun ct hct => h ct (mem_aerase hct).1

theorem NoEmptyLeaves_aset {conns : Connections} {sn : String} {T : ConnTypeMap}
    (h : NoEmptyLeaves conns) (hT : T ≠ []) (hTok : TypeMapOk T) :
    NoEmptyLeaves (aset conns sn T) := by
  intro src hsrc
  rcases mem_aset hsrc with hc | hc
  · rw [hc]; exact ⟨hT, hTok⟩
  · exact h src hc

theorem NoEmptyLeaves_aerase {conns : Connections} {sn : String}
    (h : NoEmptyLeaves conns) : NoEmptyLeaves (aerase conns sn) :=
  fun src hsrc => h src (mem_aerase hsrc).1

theorem list_set_append_last {α : Type} :
    ∀ (l : List α) (a v : α), (l ++ [a]).set l.length v = l ++ [v] := by
  intro l
  induction l with
  | nil => intro a v; rfl
  | cons hd tl ih => intro a v; simp [ih]

theorem list_getD_append_last {α : Type} :
    ∀ (l : List α) (a d : α), (l ++ [a]).getD l.length d = a := by
  intro l
  induction l with
  | nil => intro a d; rfl
  | cons hd tl ih => intro a d; simpa [List.getD] using ih a d

theorem list_getD_mem {α : Type} :
    ∀ (l : List α) (i : Nat) (d : α), i < l.length → l.getD i d ∈ l := by
  intro l
  induction l with
  | nil => intro i d h; simp at h
  | cons hd tl ih =>
    intro i d h
    cases i with
    | zero => simp [List.getD]
    | succ j =>
      simp only [List.getD_cons_succ]
      exact List.mem_cons_of_mem _ (ih j d (Nat.lt_of_succ_lt_succ h))

/-- The slot-list length at the source/type a ConnectionSpec addresses
(zero when the source name does not resolve or no entry exists). -/
def slotCount (w : Workflow) (c : ConnectionSpec) : Nat :=
  match getNodeNameById w c.sourceNodeId with
  | some sn =>
    ((alookup ((alookup w.connections sn).getD []) (c.connectionType.getD "main")).getD
      ([] : SlotList)).length
  | none => 0

theorem addConnResult_no_empty (w : Workflow) (sn tn : String) (si ti : Nat) (ty : String)
    (hw : NoEmptyLeaves w.connections)
    (hidx : si ≤ ((alookup ((alookup w.connections sn).getD []) ty).getD
      ([] : SlotList)).length) :
    NoEmptyLeaves (addConnResult w sn tn si ti ty).connections := by
  set tmap : ConnTypeMap := (alookup w.connections sn).getD [] with htmapdef
  set slots : SlotList := (alookup tmap ty).getD [] with hslotsdef
  set slots1 : SlotList := slots ++ List.replicate (si + 1 - slots.length) [] with hslots1def
  set slot : List NodeConnection := slots1.getD si [] with hslotdef
  set existing : Bool := slot.any (fun conn =>
    conn.node = tn && conn.index = ti && conn.type = ty) with hexdef
  set slot1 : List NodeConnection := (if existing then slot
    else slot ++ [{ node := tn, type := ty, index := ti }]) with hslot1def
  set slots2 : SlotList := slots1.set si slot1 with hslots2def
  have hres : (addConnResult w sn tn si ti ty).connections =
      aset w.connections sn (aset tmap ty slots2) := rfl
  have htmok : TypeMapOk tmap := by
    rw [htmapdef]
    cases hl : alookup w.connections sn with
    | none => intro ct hct; simp at hct
    | some t =>
      simp only [Option.getD_some]
      exact (hw (sn, t) (alookup_mem hl)).2
  have hslotsok : ∀ x ∈ slots, x ≠ [] := by
    rw [hslotsdef]
    cases hl : alookup tmap ty with
    | none => intro x hx; simp at hx
    | some t =>
      simp only [Option.getD_some]
      exact (htmok (ty, t) (alookup_mem hl)).2
  have hidx' : si ≤ slots.length := by rw [hslotsdef]; exact hidx
  have hcase : si < slots.length ∨ si = slots.length := by omega
  have hslots2 : slots2 ≠ [] ∧ ∀ x ∈ slots2, x ≠ [] := by
    rcases hcase with hlt | heq
    · have hpad : si + 1 - slots.length = 0 := by omega
      have h1 : slots1 = slots := by rw [hslots1def, hpad]; simp
      have hslotne : slot ≠ [] := by
        rw [hslotdef, h1]
        exact hslotsok _ (list_getD_mem slots si [] hlt)
      have hslot1ne : slot1 ≠ [] := by
        rw [hslot1def]
        cases existing with
        | true => simpa using hslotne
        | false => simp
      constructor
      · rw [hslots2def, ← List.length_pos_iff_ne_nil, List.length_set, h1]
        omega
      · intro x hx
        rw [hslots2def, h1] at hx
        rcases List.mem_or_eq_of_mem_set hx with hx | hx
        · exact hslotsok x hx
        · rw [hx]; exact hslot1ne
    · have hpad : si + 1 - slots.length = 1 := by omega
      have h1 : slots1 = slots ++ [[]] := by rw [hslots1def, hpad]; rfl
      have hslotempty : slot = [] := by
        rw [hslotdef, h1, heq]
        exact list_getD_append_last slots [] []
      have hexf : existing = false := by
        rw [hexdef, hslotempty]
        rfl
      have hslot1v : slot1 = [{ node := tn, type := ty, index := ti }] := by
        rw [hslot1def, hexf, hslotempty]
        rfl
      have h2 : slots2 = slots ++ [slot1] := by
        rw [hslots2def, h1, heq]
        exact list_set_append_last slots [] slot1
      constructor
      · rw [h2]; simp
      · intro x hx
        rw [h2] at hx
        rcases List.mem_append.mp hx with hx | hx
        · exact hslotsok x hx
        · rw [List.mem_singleton.mp hx, hslot1v]
          simp
  rw [hres]
  exact NoEmptyLeaves_aset hw (aset_ne_nil _ _ _)
    (TypeMapOk_aset htmok hslots2.1 hslots2.2)

theorem removeConnection_no_empty (w : Workflow) (rc : ConnectionSpec)
    (hw : NoEmptyLeaves w.connections) :
    NoEmptyLeaves (removeConnectionFromWorkflow w rc).1.connections := by
  rcases hgs : getNodeNameById w rc.sourceNodeId with _ | sn <;>
    rcases hgt : getNodeNameById w rc.targetNodeId with _ | tn <;>
    simp only [removeConnectionFromWorkflow, hgs, hgt]
  · exact hw
  · exact hw
  · exact hw
  by_cases htr : (!strTruthy sn || !strTruthy tn) = true
  · rw [if_pos htr]
    exact hw
  · rw [if_neg htr]
    rcases hm : alookup w.connections sn with _ | tmap
    · simp only [hm]; exact hw
    simp only [hm]
    have htmok : TypeMapOk tmap := (hw (sn, tmap) (alookup_mem hm)).2
    rcases hty : alookup tmap (rc.connectionType.getD "main") with _ | slots
    · simp only [hty]; exact hw
    simp only [hty]
    have hsl := htmok (rc.connectionType.getD "main", slots) (alookup_mem hty)
    rcases hgq : slots.get? (rc.sourceIndex.getD 0) with _ | slot
    · simp only [hgq]; exact hw
    simp only [hgq]
    rcases hfind : jsFindIndex (fun conn =>
        conn.node = tn && conn.index = rc.targetIndex.getD 0 &&
        conn.type = rc.connectionType.getD "main") slot with _ | idx
    · simp only [hfind]; exact hw
    simp only [hfind]
    by_cases h1 : (slot.eraseIdx idx).isEmpty = true
    · rw [if_pos h1]
      by_cases h2 : (slots.eraseIdx (rc.sourceIndex.getD 0)).isEmpty = true
      · rw [if_pos h2]
        by_cases h3 : (aerase tmap (rc.connectionType.getD "main")).isEmpty = true
        · rw [if_pos h3]
          exact NoEmptyLeaves_aerase hw
        · rw [if_neg h3]
          refine NoEmptyLeaves_aset hw ?_ (TypeMapOk_aerase htmok)
          intro hnil
          exact h3 (by rw [hnil]; rfl)
      · rw [if_neg h2]
        refine NoEmptyLeaves_aset hw (aset_ne_nil _ _ _) ?_
        refine TypeMapOk_aset htmok ?_ ?_
        · intro hnil
          exact h2 (by rw [hnil]; rfl)
        · intro x hx
          exact hsl.2 x (mem_of_mem_eraseIdx hx)
    · rw [if_neg h1]
      refine NoEmptyLeaves_aset hw (aset_ne_nil _ _ _) ?_
      refine TypeMapOk_aset htmok ?_ ?_
      · have hlen : 0 < slots.length := by
          rcases List.get?_eq_some.mp hgq with ⟨hlt, _⟩
          omega
        rw [← List.length_pos_iff_ne_nil, List.length_set]
        exact hlen
      · intro x hx
        rcases List.mem_or_eq_of_mem_set hx with hx | hx
        · exact hsl.2 x hx
        · rw [hx]
          intro hnil
          exact h1 (by rw [hnil]; rfl)

theorem removeNode_no_empty (w : Workflow) (nodeId : String)
    (hw : NoEmptyLeaves w.connections) :
    NoEmptyLeaves (removeNodeFromWorkflow w nodeId).1.connections := by
  rcases hfi : jsFindIndex (fun node => node.id = nodeId) w.nodes with _ | nodeIndex <;>
    simp only [removeNodeFromWorkflow, hfi]
  · exact hw
  intro src hsrc
  rw [List.mem_filterMap] at hsrc
  obtain ⟨e, he, hfe⟩ := hsrc
  split at hfe
  · exact absurd hfe (by simp)
  · rename_i hne
    have hsrc_eq := Option.some.inj hfe
    subst hsrc_eq
    dsimp only
    constructor
    · intro hnil
      exact hne (by rw [hnil]; rfl)
    · intro ct hct
      rw [List.mem_filterMap] at hct
      obtain ⟨ct0, hct0, hg⟩ := hct
      split at hg
      · exact absurd hg (by simp)
      · rename_i hne2
        have hct_eq := Option.some.inj hg
        subst hct_eq
        dsimp only
        constructor
        · intro hnil
          exact hne2 (by rw [hnil]; rfl)
        · intro slot hslot
          have hmf := List.mem_filter.mp hslot
          intro hnil
          rw [hnil] at hmf
          exact absurd hmf.2 (by simp)

/-- C9 (amended): the no-empty-leaves invariant is preserved by
`removeConnectionFromWorkflow` and `removeNodeFromWorkflow` without
restriction, and by `addConnectionToWorkflow` whenever the requested
`sourceIndex` does not exceed the number of existing slots at the
addressed source and type — a larger `sourceIndex` makes the padding loop
insert empty slot arrays below it. -/
theorem no_empty_leaves_preserved
    (w : Workflow) (c rc : ConnectionSpec) (nodeId : String)
    (hw : noEmptyLeavesB w.connections = true)
    (hidx : c.sourceIndex.getD 0 ≤ slotCount w c) :
    noEmptyLeavesB (addConnectionToWorkflow w c).1.connections = true ∧
    noEmptyLeavesB (removeConnectionFromWorkflow w rc).1.connections = true ∧
    noEmptyLeavesB (removeNodeFromWorkflow w nodeId).1.connections = true := by
  rw [noEmptyLeavesB_iff] at hw
  refine ⟨?_, ?_, ?_⟩ <;> rw [noEmptyLeavesB_iff]
  · by_cases hval :
        (validateNodesExist w [c.sourceNodeId, c.targetNodeId]).isValid = true
    · rcases hgs : getNodeNameById w c.sourceNodeId with _ | sn <;>
        rcases hgt : getNodeNameById w c.targetNodeId with _ | tn <;>
        simp only [addConnectionToWorkflow, hval, hgs, hgt, Bool.not_true,
          Bool.false_eq_true, if_false]
      · exact hw
      · exact hw
      · exact hw
      by_cases htr : (!strTruthy sn || !strTruthy tn) = true
      · rw [if_pos htr]
        exact hw
      · rw [if_neg htr]
        refine addConnResult_no_empty w sn tn (c.sourceIndex.getD 0)
          (c.targetIndex.getD 0) (c.connectionType.getD "main") hw ?_
        have hsc : slotCount w c =
            ((alookup ((alookup w.connections sn).getD [])
              (c.connectionType.getD "main")).getD ([] : SlotList)).length := by
          simp [slotCount, hgs]
        rw [hsc] at hidx
        exact hidx
    · have hval' :
          (validateNodesExist w [c.sourceNodeId, c.targetNodeId]).isValid = false :=
        Bool.eq_false_iff.mpr hval
      simp only [addConnectionToWorkflow, hval', Bool.not_false, if_true]
      exact hw
  · exact removeConnection_no_empty w rc hw
  · exact removeNode_no_empty w nodeId hw

/-- The C9 counterexample: adding at `sourceIndex = 1` into an empty table
pads an empty slot array into slot 0. -/
def c9Doc : Workflow :=
  { nodes := [{ id := "a", name := "A" }, { id := "b", name := "B" }]
    connections := [] }

def c9Spec : ConnectionSpec :=
  { sourceNodeId := "a", targetNodeId := "b", sourceIndex := some 1 }

/-- C9 counterexample: a successful `addConnectionToWorkflow` with
`sourceIndex = 1` on a document with no connections leaves an empty
output-slot array in slot 0. -/
theorem addConnection_pads_empty_slot :
    noEmptyLeavesB c9Doc.connections = true ∧
    (addConnectionToWorkflow c9Doc c9Spec).2 = true ∧
    (addConnectionToWorkflow c9Doc c9Spec).1.connections =
      [("A", [("main", [[], [{ node := "B", type := "main", index := 0 }]])])] ∧
    noEmptyLeavesB (addConnectionToWorkflow c9Doc c9Spec).1.connections = false := by
  decide

/-- A document with one edge for the C9 witness. -/
def c9WDoc : Workflow :=
  { nodes := [{ id := "a", name := "A" }, { id := "b", name := "B" }]
    connections := [("A", [("main", [[{ node := "B", type := "main", index := 0 }]])])] }

def c9WSpec : ConnectionSpec := { sourceNodeId := "a", targetNodeId := "b" }

/-- Witness for the amended C9 at `c9WDoc`. -/
theorem no_empty_leaves_preserved_witness :
    noEmptyLeavesB (addConnectionToWorkflow c9WDoc c9WSpec).1.connections = true ∧
    noEmptyLeavesB (removeConnectionFromWorkflow c9WDoc c9WSpec).1.connections = true ∧
    noEmptyLeavesB (removeNodeFromWorkflow c9WDoc "a").1.connections = true :=
  no_empty_leaves_preserved c9WDoc c9WSpec c9WSpec "a" (by decide) (by decide)

end N8n
